import Mathlib

/-!
Verification of the session-aware retrieval and extraction engine in
scripts/one_shot.py of the Tcgplayer_webscrapper repository.  Python
strings are modelled as lists of characters; monetary amounts as exact
cent counts (the source only ever produces values with at most two
decimal digits, on which the float rounding in the source is the
identity); every interaction with the render engine is modelled by an
explicit environment record listing the outcome of each engine call.
All definitions are translated from the source; fuel arguments replace
the bounded loops of the source, with the fuel set to the guard bound
of the corresponding loop.
-/

namespace OneShot

/-- Python strings are modelled as lists of characters. -/
abbrev Str := List Char

/-- Build a modelled string from a Lean string literal. -/
def strL (s : String) : Str := s.data

/-- Whitespace characters removed by the Python str.strip method
(ASCII subset, which is all the source ever strips). -/
def isWSChar (c : Char) : Bool :=
  c == ' ' || c == '\t' || c == '\n' || c == '\r' || c == '\x0b' || c == '\x0c'

/-- Python str.strip: drop whitespace from both ends. -/
def strip (s : Str) : Str :=
  ((s.dropWhile isWSChar).reverse.dropWhile isWSChar).reverse

/-- Python str.lower (ASCII behaviour suffices for the phrases the
source compares against). -/
def lowerStr (s : Str) : Str := s.map Char.toLower

/-- Boolean string-begins-with test. -/
def isPrefixB : Str → Str → Bool
  | [], _ => true
  | _ :: _, [] => false
  | a :: as, b :: bs => a == b && isPrefixB as bs

/-- Python substring containment, needle-first: containsSub n h models
the Python expression n in h. -/
def containsSub (needle : Str) : Str → Bool
  | [] => isPrefixB needle []
  | c :: rest => isPrefixB needle (c :: rest) || containsSub needle rest

/-- Python truthiness of a string-or-None value: None and the empty
string are falsy. -/
def optS (o : Option Str) : Str := o.getD []

/-- Python x or y on strings (empty string is falsy). -/
def pyOrS (a b : Str) : Str := if a = [] then b else a

/-- Numeric value of a digit string (most significant first). -/
def digitsVal (ds : Str) : Nat := ds.foldl (fun a c => 10 * a + (c.toNat - 48)) 0

/-- Decimal rendering of a natural number, with structural fuel so that
the definition reduces in the kernel; natDecimal below supplies enough
fuel for every input. -/
def natDecimalAux : Nat → Nat → Str
  | 0, _ => []
  | fuel + 1, n =>
    if n < 10 then [Nat.digitChar n]
    else natDecimalAux fuel (n / 10) ++ [Nat.digitChar (n % 10)]

/-- Decimal rendering of a natural number, as produced by Python str
formatting of a nonnegative integer. -/
def natDecimal (n : Nat) : Str := natDecimalAux (n + 1) n

/-- Characters matched by the regex class of digits and commas used in
the monetary pattern. -/
def isMoneyChar (c : Char) : Bool := c.isDigit || c == ','

/-- Attempt to match the monetary regex of _to_money_float at the head
of the string.  The regex is a dollar sign, one digit, a greedy run of
digits and commas, an optional dot, and up to two fraction digits; the
source then deletes the dollar sign and commas and converts with float.
The result is the exact value in cents. -/
def moneyAt : Str → Option Nat
  | '$' :: c :: rest =>
    if c.isDigit then
      let run := (c :: rest).takeWhile isMoneyChar
      let after := (c :: rest).dropWhile isMoneyChar
      let intPart := digitsVal (run.filter Char.isDigit)
      let fracDigits : Str :=
        match after with
        | '.' :: r2 => (r2.takeWhile Char.isDigit).take 2
        | _ => []
      let fracCents : Nat :=
        match fracDigits with
        | [d] => 10 * (d.toNat - 48)
        | [d1, d2] => 10 * (d1.toNat - 48) + (d2.toNat - 48)
        | _ => 0
      some (intPart * 100 + fracCents)
    else none
  | _ => none

/-- Leftmost match of the monetary regex, as performed by re.search in
_to_money_float. -/
def moneySearch : Str → Option Nat
  | [] => none
  | c :: rest =>
    match moneyAt (c :: rest) with
    | some v => some v
    | none => moneySearch rest

/-- _to_money_float in scripts/one_shot.py: None on the empty string or
when the monetary pattern does not occur, else the matched value (the
float conversion in the source cannot fail on a matched string). -/
def toMoneyFloat (s : Str) : Option Nat := moneySearch s

/-- First maximal run of digits in a string. -/
def firstDigitRun : Str → Option Str
  | [] => none
  | c :: rest =>
    if c.isDigit then some ((c :: rest).takeWhile Char.isDigit)
    else firstDigitRun rest

/-- _parse_quantity_text in scripts/one_shot.py: delete commas, then
take the first run of digits, if any. -/
def parseQuantityText : Option Str → Option Nat
  | none => none
  | some t =>
    if t = [] then none
    else (firstDigitRun (t.filter (fun c => c != ','))).map digitsVal

/-- _parse_shipping_text in scripts/one_shot.py. -/
def parseShippingText : Option Str → Option Nat
  | none => none
  | some t =>
    let cleaned := strip t
    if cleaned = [] then none
    else if containsSub (strL (r"free")) (lowerStr cleaned) then some 0
    else toMoneyFloat cleaned

/-- _extract_seller_id_from_href in scripts/one_shot.py: the regex
matches a slash followed by a nonempty run of non-slash characters at
the end of the stripped href. -/
def extractSellerIdFromHref : Option Str → Option Str
  | none => none
  | some h =>
    let s := strip h
    let tail := (s.reverse.takeWhile (fun c => c != '/')).reverse
    if tail.length < s.length && !tail.isEmpty then some tail else none

/-- One raw entry produced by the batched DOM query inside
_scrape_active_listings_from_dom (the JavaScript pass); every field is
what the corresponding dictionary entry holds, with None for missing or
null values. -/
structure RawListing where
  key : Option Str
  condition : Option Str
  priceText : Option Str
  priceContext : Option Str
  shippingText : Option Str
  shippingHasAnchor : Bool
  sellerName : Option Str
  sellerHref : Option Str
  quantityText : Option Str
  additionalInfo : Option Str
deriving DecidableEq

/-- A processed listing record, as built by the Python post-processing
loop of _scrape_active_listings_from_dom; price and shippingPrice are
in cents, on which the round(x, 2) of the source is the identity. -/
structure ListingRecord where
  key : Str
  condition : Str
  price : Nat
  shippingPrice : Nat
  sellerName : Str
  sellerId : Option Str
  quantityAvailable : Nat
  additionalInfo : Option Str
deriving DecidableEq

/-- The record fields that remain once the internal dedup key is
removed (listing.pop applied to the key in the callers). -/
structure ListingFields where
  condition : Str
  price : Nat
  shippingPrice : Nat
  sellerName : Str
  sellerId : Option Str
  quantityAvailable : Nat
  additionalInfo : Option Str
deriving DecidableEq

def fieldsOf (r : ListingRecord) : ListingFields :=
  ⟨r.condition, r.price, r.shippingPrice, r.sellerName, r.sellerId,
   r.quantityAvailable, r.additionalInfo⟩

/-- price_val in the post-processing loop: the price text is tried
first, then the price context. -/
def priceOf (e : RawListing) : Option Nat :=
  match toMoneyFloat (optS e.priceText) with
  | some v => some v
  | none => toMoneyFloat (optS e.priceContext)

/-- shipping_val in the post-processing loop: zero when the shipping
sibling span holds an anchor, else the parsed shipping text, else
zero. -/
def shippingOf (e : RawListing) : Nat :=
  if e.shippingHasAnchor then 0
  else (parseShippingText e.shippingText).getD 0

/-- quantity_val in the post-processing loop, with the default of zero
applied where the record is built. -/
def quantityOf (e : RawListing) : Nat :=
  (parseQuantityText e.quantityText).getD 0

/-- condition_text in the post-processing loop. -/
def conditionOf (e : RawListing) : Str :=
  let c := strip (optS e.condition)
  if c = [] then strL (r"Unknown Condition") else c

def sellerIdOf (e : RawListing) : Option Str :=
  extractSellerIdFromHref e.sellerHref

def sellerNameOf (e : RawListing) : Str := strip (optS e.sellerName)

/-- additional_info in the post-processing loop: stripped, and empty
strings become None. -/
def addInfoOf (e : RawListing) : Option Str :=
  match e.additionalInfo with
  | none => none
  | some s => let t := strip s; if t = [] then none else some t

/-- Python format of a cent amount with two forced fraction digits, as
f-string .2f formatting produces on the float values of the source. -/
def fmtMoney2 (cents : Nat) : Str :=
  natDecimal (cents / 100) ++ '.' :: [Nat.digitChar (cents % 100 / 10), Nat.digitChar (cents % 10)]

/-- Python str of a float holding an exact cent amount (shortest
round-tripping decimal, so trailing fraction zeros are dropped but one
fraction digit always remains). -/
def pyFloatStr (cents : Nat) : Str :=
  let q := cents / 100
  let r := cents % 100
  if r = 0 then natDecimal q ++ ['.', '0']
  else if r % 10 = 0 then natDecimal q ++ ['.', Nat.digitChar (r / 10)]
  else natDecimal q ++ ['.', Nat.digitChar (r / 10), Nat.digitChar (r % 10)]

/-- Python join with a pipe separator. -/
def joinBar : List Str → Str
  | [] => []
  | [x] => x
  | x :: y :: rest => x ++ '|' :: joinBar (y :: rest)

/-- fallback_key in the post-processing loop: the pipe-joined composite
of seller, condition, price, shipping, quantity and info; p is the
parsed price of the entry. -/
def fallbackKeyOf (e : RawListing) (p : Nat) : Str :=
  joinBar
    [ pyOrS (optS (sellerIdOf e)) (sellerNameOf e),
      conditionOf e,
      fmtMoney2 p,
      fmtMoney2 (shippingOf e),
      natDecimal (quantityOf e),
      optS (addInfoOf e) ]

/-- base_key in the post-processing loop: the stripped raw key from the
DOM pass when nonempty, else the composite, else a positional name
(the composite is never empty, so the last branch is unreachable). -/
def baseKeyOf (e : RawListing) (p : Nat) (idx : Nat) : Str :=
  pyOrS (strip (optS e.key))
    (pyOrS (fallbackKeyOf e p) (strL (r"listing-") ++ natDecimal idx))

/-- The j-th candidate key tried by the collision loop: the base key
itself, then the base key with a fresh numeric suffix, starting at 2. -/
def keyCand (base : Str) : Nat → Str
  | 0 => base
  | j + 1 => base ++ '#' :: natDecimal (j + 2)

/-- The while loop that searches the first candidate key not yet seen.
Fuel of one more than the number of seen keys always suffices, since
the candidates are pairwise distinct. -/
def freshKeyAux (base : Str) (seen : List Str) : Nat → Nat → Str
  | 0, j => keyCand base j
  | fuel + 1, j =>
    if keyCand base j ∈ seen then freshKeyAux base seen fuel (j + 1)
    else keyCand base j

def freshKey (base : Str) (seen : List Str) : Str :=
  freshKeyAux base seen (seen.length + 1) 0

/-- The Python post-processing loop of _scrape_active_listings_from_dom
over the raw entries, carrying the enumerate index and the set of
already assigned keys. -/
def processAux : List RawListing → Nat → List Str → List ListingRecord
  | [], _, _ => []
  | e :: rest, idx, seen =>
    match priceOf e with
    | none => processAux rest (idx + 1) seen
    | some p =>
      let k := freshKey (baseKeyOf e p idx) seen
      ⟨k, conditionOf e, p, shippingOf e, sellerNameOf e, sellerIdOf e,
       quantityOf e, addInfoOf e⟩ :: processAux rest (idx + 1) (seen ++ [k])

/-- The processed listing list returned by
_scrape_active_listings_from_dom. -/
def processListings (raws : List RawListing) : List ListingRecord :=
  processAux raws 0 []

/-- The keyless record the post-processing loop produces for one raw
entry, or None when the entry is discarded for an unparsable price;
used to characterise processListings. -/
def processEntry (e : RawListing) : Option ListingFields :=
  (priceOf e).map fun p =>
    ⟨conditionOf e, p, shippingOf e, sellerNameOf e, sellerIdOf e,
     quantityOf e, addInfoOf e⟩

/-- One table-like structure handed to
_extract_tables_from_dialog_html, with the text of every cell already
extracted by the HTML parser (an external collaborator).  thead holds
the cell texts of an explicit header section when one exists; bodies
lists the row groups iterated by the source (the tbody elements when
present, else the whole table), each row being its cell texts.  The
first row of the flattened bodies is the first tr of the table, which
the source uses as headers when no thead exists. -/
structure HtmlTable where
  thead : Option (List Str)
  bodies : List (List (List Str))
deriving DecidableEq

/-- Header extraction in _extract_tables_from_dialog_html: from the
thead cells when present, keeping only cells with nonempty stripped
text, else all cells of the first row. -/
def headersOf (t : HtmlTable) : List Str :=
  match t.thead with
  | some cells => cells.filter (fun c => !(strip c).isEmpty)
  | none => (t.bodies.flatten.head?).getD []

/-- A produced row: either a label-to-value mapping or the positional
cell list stored under the cols label. -/
inductive RowOut where
  | mapping (pairs : List (Str × Str))
  | cols (cells : List Str)
deriving DecidableEq

/-- Column label of a mapping row: the header text, or a positional
name when the header text is empty. -/
def colName (h : Str) (i : Nat) : Str :=
  if h = [] then strL (r"col_") ++ natDecimal i else h

/-- The pairs of a mapping row, built when header and cell counts
agree; the Python dict is modelled as the ordered association pairs
(a duplicated header label would overwrite in the dict, which no claim
concerns). -/
def mkPairs (headers cells : List Str) : List (Str × Str) :=
  (headers.zip cells).enum.map fun ic => (colName ic.2.1 ic.1, ic.2.2)

/-- The entry contributed by one body row, or None when the row is
skipped for exactly duplicating the headers; used to characterise the
row loop. -/
def rowFn (headers : List Str) (cells : List Str) : Option RowOut :=
  if headers ≠ [] ∧ cells = headers then none
  else if headers ≠ [] ∧ headers.length = cells.length then
    some (.mapping (mkPairs headers cells))
  else some (.cols cells)

/-- The row loop of _extract_tables_from_dialog_html over one row
group, appending to the accumulated rows. -/
def extractRowsAux (headers : List Str) : List (List Str) → List RowOut → List RowOut
  | [], acc => acc
  | tr :: rest, acc =>
    if headers ≠ [] ∧ tr = headers then extractRowsAux headers rest acc
    else if headers ≠ [] ∧ headers.length = tr.length then
      extractRowsAux headers rest (acc ++ [.mapping (mkPairs headers tr)])
    else extractRowsAux headers rest (acc ++ [.cols tr])

/-- The body loop of _extract_tables_from_dialog_html. -/
def extractBodiesAux (headers : List Str) : List (List (List Str)) → List RowOut → List RowOut
  | [], acc => acc
  | b :: rest, acc => extractBodiesAux headers rest (extractRowsAux headers b acc)

/-- Output of the table extractor for one table. -/
structure TableOut where
  headers : List Str
  rows : List RowOut
deriving DecidableEq

/-- _extract_tables_from_dialog_html applied to one table. -/
def extractTable (t : HtmlTable) : TableOut :=
  let hs := headersOf t
  ⟨hs, extractBodiesAux hs t.bodies []⟩

/-- _extract_tables_from_dialog_html over the tables of one dialog. -/
def extractTables (ts : List HtmlTable) : List TableOut := ts.map extractTable

/-- Environment of one pagination traversal: the page number the page
actually starts on, and for each successive engine call whether it
succeeds.  detectOk indexes the calls to _detect_current_page (a call
that succeeds reports the page the browser is actually on); gotoOk
indexes the calls to _go_to_page_via_direct_url (a failed call leaves
the page where it was). -/
structure PagerEnv where
  initPage : Int
  detectOk : Nat → Bool
  gotoOk : Nat → Bool

/-- Python x or y on an optional integer: None and zero are falsy. -/
def pyOrI (o : Option Int) (b : Int) : Int :=
  match o with
  | none => b
  | some v => if v = 0 then b else v

/-- Mutable state of a traversal: the page the browser is actually on
and the number of engine calls of each kind made so far. -/
structure PagerSt where
  actual : Int
  detects : Nat
  gotos : Nat
deriving DecidableEq

/-- _detect_current_page: reports the actual page when the pager label
(or the url parameter) is readable, else None. -/
def doDetect (env : PagerEnv) (st : PagerSt) : Option Int × PagerSt :=
  (if env.detectOk st.detects then some st.actual else none,
   ⟨st.actual, st.detects + 1, st.gotos⟩)

/-- _go_to_page_via_direct_url: clamps the requested page below by one
itself, then navigates; on failure the function reports False and the
page is left unchanged. -/
def doGoto (env : PagerEnv) (st : PagerSt) (n : Int) : Bool × PagerSt :=
  if env.gotoOk st.gotos then (true, ⟨max 1 n, st.detects, st.gotos + 1⟩)
  else (false, ⟨st.actual, st.detects, st.gotos + 1⟩)

/-- The single-step loop of _navigate_to_page_number (used when the
target or the last page is at most 5), with its guard counter of 20 as
fuel; returns the function result, the final value of the current
variable, and the final state. -/
def stepLoop (env : PagerEnv) (target last step : Int) :
    Nat → Int → PagerSt → Bool × Int × PagerSt
  | 0, cur, st => (decide (cur = target), cur, st)
  | fuel + 1, cur, st =>
    if cur = target then (true, cur, st)
    else
      let next := max 1 (min last (cur + step))
      if next = cur then (decide (cur = target), cur, st)
      else
        let g := doGoto env st next
        if g.1 then
          let d := doDetect env g.2
          stepLoop env target last step fuel (pyOrI d.1 next) d.2
        else (false, cur, g.2)

/-- The sequential walk toward page 5 of _navigate_to_page_number, with
its guard counter of 10 as fuel; a false first component means the
whole function returns False at the reported current value. -/
def seqLoop (env : PagerEnv) : Nat → Int → PagerSt → Bool × Int × PagerSt
  | 0, cur, st => (true, cur, st)
  | fuel + 1, cur, st =>
    if cur < 5 then
      let g := doGoto env st (cur + 1)
      if g.1 then
        let d := doDetect env g.2
        seqLoop env fuel (pyOrI d.1 (cur + 1)) d.2
      else (false, cur, g.2)
    else (true, cur, st)

/-- The stride loop of _navigate_to_page_number (jumps of at most 5
pages toward the target), with its guard counter of 20 as fuel. -/
def strideLoop (env : PagerEnv) (target last : Int) :
    Nat → Int → PagerSt → Bool × Int × PagerSt
  | 0, cur, st => (decide (cur = target), cur, st)
  | fuel + 1, cur, st =>
    if cur = target then (true, cur, st)
    else
      let next0 := if (target - cur).natAbs ≤ 5 then target
                   else cur + (if target - cur > 0 then 5 else -5)
      let next := max 1 (min last next0)
      if next = cur then (decide (cur = target), cur, st)
      else
        let g := doGoto env st next
        if g.1 then
          let d := doDetect env g.2
          strideLoop env target last fuel (pyOrI d.1 next) d.2
        else (false, cur, g.2)

/-- The part of _navigate_to_page_number after the current page has
been read: cur is the initial value of its current variable and st the
engine state after that first detection. -/
def navPhase2 (env : PagerEnv) (target last cur : Int) (st : PagerSt) :
    Bool × Int × PagerSt :=
  if cur = target then (true, cur, st)
  else if target ≤ 5 ∨ last ≤ 5 then
    stepLoop env target last (if target > cur then 1 else -1) 20 cur st
  else
    let wp : Int := if (target - 5).natAbs ≤ (last - target).natAbs then 5 else last
    if cur ≠ wp then
      let sq := if wp = 5 ∧ cur < 5 then seqLoop env 10 cur st else (true, cur, st)
      if sq.1 = false then (false, sq.2.1, sq.2.2)
      else if sq.2.1 ≠ wp then
        let g := doGoto env sq.2.2 wp
        if g.1 then
          let d := doDetect env g.2
          strideLoop env target last 20 (pyOrI d.1 wp) d.2
        else (false, sq.2.1, g.2)
      else strideLoop env target last 20 sq.2.1 sq.2.2
    else strideLoop env target last 20 cur st

/-- _navigate_to_page_number in scripts/one_shot.py: returns the
function result, the final value of its current variable, and the
final engine state. -/
def navigateToPageNumber (env : PagerEnv) (targetPage lastPage : Int) :
    Bool × Int × PagerSt :=
  let last := if lastPage ≤ 0 then 1 else lastPage
  let target := max 1 (min last targetPage)
  let d0 := doDetect env ⟨env.initPage, 0, 0⟩
  navPhase2 env target last (pyOrI d0.1 1) d0.2

/-- Environment of _goto_with_retries: for each attempt index, whether
the page load succeeds, and whether the subsequent wait for network
quiescence succeeds (the source swallows a quiescence failure inside
its own try block, so the second family of outcomes never influences
the result). -/
structure NavEnv where
  attemptOk : Nat → Bool
  quiesceOk : Nat → Bool

/-- Observable outcome of _goto_with_retries: whether the call returns
normally (false means the navigation error is raised), how many
attempts were made, and the waits inserted after failed attempts, in
milliseconds. -/
structure GotoTrace where
  success : Bool
  attempts : Nat
  waits : List Nat
deriving DecidableEq

/-- The attempt loop of _goto_with_retries, k being the index of the
next attempt and fuel the number of attempts remaining. -/
def gotoAux (env : NavEnv) : Nat → Nat → List Nat → GotoTrace
  | 0, k, ws => ⟨false, k, ws⟩
  | fuel + 1, k, ws =>
    if env.attemptOk k then ⟨true, k + 1, ws⟩
    else gotoAux env fuel (k + 1) (ws ++ [500 * (k + 1)])

/-- _goto_with_retries in scripts/one_shot.py, parameterised by the
configured RETRY_TIMES. -/
def gotoWithRetries (retryTimes : Nat) (env : NavEnv) : GotoTrace :=
  gotoAux env (retryTimes + 1) 0 []

/-- Configuration read from the environment by the source. -/
structure Config where
  forceStateOnly : Bool
  email : Option Str
  password : Option Str
  maxListingPages : Nat
  retryTimes : Nat

/-- The two places where an exception can escape one of the public
operations: a failed page load inside _do_login_flow (its goto is not
wrapped in a try block) and the re-navigation after a supplementary
login attempt (likewise unwrapped). -/
inductive Exn where
  | loginFlowNav
  | retryNav
deriving DecidableEq

/-- Error strings produced by _do_login_flow. -/
inductive LoginErr where
  | missingCredentials
  | selectorsNotFound
  | loginVerificationFailed
deriving DecidableEq

/-- Result dictionary of _do_login_flow (diagnostic artifact paths are
omitted); stateWritten records whether context.storage_state was
invoked to persist the session-state file. -/
structure LoginResult where
  ok : Bool
  error : Option LoginErr
  stateWritten : Bool
deriving DecidableEq

/-- Environment of one run of _do_login_flow: whether the login page
load succeeds, whether some email and some password field locator
strategy succeeds, the outcome of each of the twelve polls of
_is_logged_in after submission, and whether the page is showing a
verification or two-factor challenge (a fact of the page that the
source never inspects). -/
structure LoginEnv where
  gotoOk : Bool
  emailFillOk : Bool
  passFillOk : Bool
  polls : Nat → Bool
  challengeShown : Bool

/-- Truthiness of the credential pair, as tested by the source with
os.getenv conjunctions. -/
def credsTruthy (cfg : Config) : Bool :=
  !(optS cfg.email).isEmpty && !(optS cfg.password).isEmpty

/-- Whether any of the twelve polls observes the authenticated
signal. -/
def pollSuccess (lenv : LoginEnv) : Bool := (List.range 12).any lenv.polls

/-- _do_login_flow in scripts/one_shot.py.  The submission strategies
(click, then keyboard) have no observable effect in this model. -/
def doLoginFlow (cfg : Config) (lenv : LoginEnv) : Except Exn LoginResult :=
  if !credsTruthy cfg then .ok ⟨false, some .missingCredentials, false⟩
  else if !lenv.gotoOk then .error .loginFlowNav
  else if !(lenv.emailFillOk && lenv.passFillOk) then
    .ok ⟨false, some .selectorsNotFound, false⟩
  else if pollSuccess lenv then .ok ⟨true, none, true⟩
  else .ok ⟨false, some .loginVerificationFailed, false⟩

/-- Environment of _ensure_logged_in outside the login flow: whether
the home page load succeeds (a failure is swallowed) and whether the
home page then shows the authenticated signal. -/
structure EnsureEnv where
  homeNavOk : Bool
  homeLoggedIn : Bool

/-- The login_info dictionaries the public operations can carry. -/
inductive LoginInfo where
  | existing
  | stateOnly
  | flow (r : LoginResult)
  | noStateNoCreds
  | retried (first : LoginInfo) (retry : LoginResult)
deriving DecidableEq

/-- _ensure_logged_in in scripts/one_shot.py. -/
def ensureLoggedIn (cfg : Config) (env : EnsureEnv) (lenv : LoginEnv) :
    Except Exn LoginInfo :=
  if env.homeNavOk && env.homeLoggedIn then .ok .existing
  else if cfg.forceStateOnly then .ok .stateOnly
  else if credsTruthy cfg then (doLoginFlow cfg lenv).map .flow
  else .ok .noStateNoCreds

/-- Python int applied to a string: optional sign, then digits only
(the call sites only ever see url query values). -/
def pyIntOf (s : Str) : Option Int :=
  let t := strip s
  match t with
  | '-' :: ds =>
    if ds ≠ [] ∧ ds.all Char.isDigit then some (-(digitsVal ds : Int)) else none
  | '+' :: ds =>
    if ds ≠ [] ∧ ds.all Char.isDigit then some ((digitsVal ds : Int)) else none
  | ds =>
    if ds ≠ [] ∧ ds.all Char.isDigit then some ((digitsVal ds : Int)) else none

/-- One state of the listing page as seen by one iteration of the
aggregation loop of fetch_active_listings: whether the listings
container renders, the content signature read for cycle detection, the
raw entries the DOM query returns, and whether a next-page control can
be activated. -/
structure CrawlPage where
  containerOk : Bool
  signature : Option Str
  rawListings : List RawListing
  nextOk : Bool

/-- Everything one public operation can observe about the target page
after a successful navigation. -/
structure PageData where
  title : Str
  body : Str
  loggedIn : Bool
  recentSale : Option Nat
  containerPresent : Bool
  lastPageLabel : Option Str
  currentPageLabel : Option Str
  urlPageParam : Option Str
  rawListings : List RawListing
  dialogOpens : Bool
  dialogFound : Bool
  dialogTables : List HtmlTable
  dialogStats : List (Str × Str)
  dialogText : Str

/-- Environment of one public operation: the outcomes of the ensure
step, of the first navigation (None when _goto_with_retries exhausts
its retries and raises), of the supplementary login flow, of the
re-navigation after it, and of each iteration of the aggregation
loop. -/
structure OpEnv where
  ensure : EnsureEnv
  ensureLogin : LoginEnv
  nav1 : Option PageData
  retryLogin : LoginEnv
  nav2 : Option PageData
  crawl : Nat → CrawlPage

/-- The structured error taxonomy of the source. -/
inductive ErrCode where
  | timeoutNav
  | blockedOrChallenge
  | timeoutDialog
  | dialogNotFoundAfterOpen
  | dialogEmpty
  | listingsContainerNotFound
  | pageOutOfRange
  | invalidPageNumber
deriving DecidableEq

/-- _anti_bot_check in scripts/one_shot.py. -/
def antiBotCheck (pg : PageData) : Option ErrCode :=
  if containsSub (strL (r"access denied")) (lowerStr pg.title)
      || containsSub (strL (r"verify you are a human")) (lowerStr pg.body)
      || containsSub (strL (r"are you human")) (lowerStr pg.body) then
    some .blockedOrChallenge
  else none

/-- Condition guarding the supplementary login attempt inside every
public operation. -/
def retryCond (cfg : Config) (pg : PageData) : Bool :=
  !pg.loggedIn && !cfg.forceStateOnly && credsTruthy cfg

/-- Where the shared preamble of a public operation can end. -/
inductive Prologue where
  | navFailed (li : LoginInfo)
  | blocked (li : LoginInfo) (pg : PageData)
  | proceed (li : LoginInfo) (pg : PageData)

/-- The shared preamble of every public operation: ensure a login,
navigate with retries, optionally retry the login and re-navigate, and
run the anti-automation probe. -/
def opPrologue (cfg : Config) (env : OpEnv) : Except Exn Prologue :=
  match ensureLoggedIn cfg env.ensure env.ensureLogin with
  | .error e => .error e
  | .ok li =>
    match env.nav1 with
    | none => .ok (.navFailed li)
    | some pg =>
      if retryCond cfg pg then
        match doLoginFlow cfg env.retryLogin with
        | .error e => .error e
        | .ok r =>
          match env.nav2 with
          | none => .error .retryNav
          | some pg2 =>
            match antiBotCheck pg2 with
            | some _ => .ok (.blocked (.retried li r) pg2)
            | none => .ok (.proceed (.retried li r) pg2)
      else
        match antiBotCheck pg with
        | some _ => .ok (.blocked li pg)
        | none => .ok (.proceed li pg)

/-- The page on which the anti-automation probe runs, when the preamble
reaches the probe at all. -/
def probePage (cfg : Config) (env : OpEnv) : Option PageData :=
  match ensureLoggedIn cfg env.ensure env.ensureLogin with
  | .error _ => none
  | .ok _ =>
    match env.nav1 with
    | none => none
    | some pg =>
      if retryCond cfg pg then
        match doLoginFlow cfg env.retryLogin with
        | .error _ => none
        | .ok _ => env.nav2
      else some pg

/-- _extract_last_page_number in scripts/one_shot.py: always at least
one. -/
def extractLastPageNumber (pg : PageData) : Nat :=
  match pg.lastPageLabel with
  | some lbl =>
    match firstDigitRun lbl with
    | some run => let v := digitsVal run; if v > 0 then v else 1
    | none => 1
  | none => 1

/-- Fallback of _detect_current_page: the page url query parameter. -/
def detectFromUrl (pg : PageData) : Option Int :=
  match pg.urlPageParam with
  | some v => if strip v ≠ [] then pyIntOf v else none
  | none => none

/-- _detect_current_page in scripts/one_shot.py. -/
def detectCurrentPage (pg : PageData) : Option Int :=
  match pg.currentPageLabel with
  | some lbl =>
    match firstDigitRun lbl with
    | some run => some ((digitsVal run : Int))
    | none => detectFromUrl pg
  | none => detectFromUrl pg

/-- Result of fetch_last_sold_once (url, timestamp and elapsed time
omitted: they carry no verified content). -/
structure LastSoldResult where
  mostRecentSale : Option Nat
  login : LoginInfo
  error : Option ErrCode
deriving DecidableEq

/-- fetch_last_sold_once in scripts/one_shot.py. -/
def fetchLastSoldOnce (cfg : Config) (env : OpEnv) : Except Exn LastSoldResult :=
  match opPrologue cfg env with
  | .error e => .error e
  | .ok (.navFailed li) => .ok ⟨none, li, some .timeoutNav⟩
  | .ok (.blocked li _) => .ok ⟨none, li, some .blockedOrChallenge⟩
  | .ok (.proceed li pg) => .ok ⟨pg.recentSale, li, none⟩

/-- Result of fetch_sales_snapshot. -/
structure SnapshotResult where
  title : Option Str
  tables : List TableOut
  stats : List (Str × Str)
  text : Option Str
  login : LoginInfo
  error : Option ErrCode
deriving DecidableEq

/-- fetch_sales_snapshot in scripts/one_shot.py.  The key-value
extraction of the dialog is modelled as an environment-provided
outcome; the table extraction runs the verified extractor. -/
def fetchSalesSnapshot (cfg : Config) (env : OpEnv) : Except Exn SnapshotResult :=
  match opPrologue cfg env with
  | .error e => .error e
  | .ok (.navFailed li) => .ok ⟨none, [], [], none, li, some .timeoutNav⟩
  | .ok (.blocked li _) => .ok ⟨none, [], [], none, li, some .blockedOrChallenge⟩
  | .ok (.proceed li pg) =>
    if !pg.dialogOpens then .ok ⟨none, [], [], none, li, some .timeoutDialog⟩
    else if !pg.dialogFound then
      .ok ⟨none, [], [], none, li, some .dialogNotFoundAfterOpen⟩
    else
      let tables := extractTables pg.dialogTables
      let stats := pg.dialogStats
      let txt := pg.dialogText
      if tables = [] ∧ stats = [] ∧ (txt = [] ∨ strip txt = []) then
        .ok ⟨some (strL (r"Sales History Snapshot")), [], [], none, li, some .dialogEmpty⟩
      else
        .ok ⟨some (strL (r"Sales History Snapshot")), tables, stats,
             if txt = [] then none else some (strip txt), li, none⟩

/-- Result of fetch_pages_in_product. -/
structure PagesResult where
  totalPages : Option Nat
  login : LoginInfo
  error : Option ErrCode
deriving DecidableEq

/-- fetch_pages_in_product in scripts/one_shot.py. -/
def fetchPagesInProduct (cfg : Config) (env : OpEnv) : Except Exn PagesResult :=
  match opPrologue cfg env with
  | .error e => .error e
  | .ok (.navFailed li) => .ok ⟨none, li, some .timeoutNav⟩
  | .ok (.blocked li _) => .ok ⟨none, li, some .blockedOrChallenge⟩
  | .ok (.proceed li pg) =>
    if !pg.containerPresent then .ok ⟨none, li, some .listingsContainerNotFound⟩
    else .ok ⟨some (extractLastPageNumber pg), li, none⟩

/-- Externally visible side effects tracked for the early-validation
claim: creating the browser context, running the ensure-login step
(which itself navigates), and attempting the target navigation. -/
inductive Effect where
  | newContext
  | ensureLoginCall
  | navigate
deriving DecidableEq

/-- Result of fetch_active_listings_in_page; login is None on the
early-validation return, which carries no login field at all. -/
structure ListingsPageResult where
  targetPage : Int
  currentPage : Option Int
  totalPages : Option Nat
  listings : List ListingFields
  listingsCount : Nat
  login : Option LoginInfo
  error : Option ErrCode
deriving DecidableEq

/-- fetch_active_listings_in_page in scripts/one_shot.py, with the
trace of tracked effects as second component. -/
def fetchActiveListingsInPage (cfg : Config) (env : OpEnv) (targetPage : Int) :
    Except Exn ListingsPageResult × List Effect :=
  if targetPage < 1 then
    (.ok ⟨targetPage, none, none, [], 0, none, some .invalidPageNumber⟩, [])
  else
    (match opPrologue cfg env with
     | .error e => .error e
     | .ok (.navFailed li) =>
       .ok ⟨targetPage, none, none, [], 0, some li, some .timeoutNav⟩
     | .ok (.blocked li _) =>
       .ok ⟨targetPage, none, none, [], 0, some li, some .blockedOrChallenge⟩
     | .ok (.proceed li pg) =>
       if !pg.containerPresent then
         .ok ⟨targetPage, none, none, [], 0, some li, some .listingsContainerNotFound⟩
       else
         let last := extractLastPageNumber pg
         if targetPage > (last : Int) then
           .ok ⟨targetPage, none, some last, [], 0, some li, some .pageOutOfRange⟩
         else
           let ls := (processListings pg.rawListings).map fieldsOf
           .ok ⟨targetPage, detectCurrentPage pg, some last, ls, ls.length, some li, none⟩,
     [Effect.newContext, Effect.ensureLoginCall, Effect.navigate])

/-- Result of fetch_active_listings. -/
structure ListingsResult where
  listings : List ListingFields
  pagesScanned : Nat
  login : LoginInfo
  error : Option ErrCode
deriving DecidableEq

/-- The aggregate dedup key of the crawl loop of fetch_active_listings:
the popped record key when nonempty, else a second composite formed
with Python str of the price float and of the possibly-None info. -/
def aggregateKey (r : ListingRecord) : Str :=
  pyOrS r.key (joinBar
    [r.sellerName, r.condition, pyFloatStr r.price, natDecimal r.quantityAvailable,
      match r.additionalInfo with
      | some s => s
      | none => strL (r"None")])

/-- The per-page dedup fold of the crawl loop. -/
def dedupFold : List ListingRecord → List Str → List ListingFields →
    List Str × List ListingFields
  | [], keys, acc => (keys, acc)
  | r :: rest, keys, acc =>
    let dk := aggregateKey r
    if dk ∈ keys then dedupFold rest keys acc
    else dedupFold rest (keys ++ [dk]) (acc ++ [fieldsOf r])

/-- The while loop of fetch_active_listings, with the configured page
cap as fuel; i is the number of pages inspected so far; returns the
aggregated listings and the final page count. -/
def crawlAux (crawl : Nat → CrawlPage) :
    Nat → Nat → List Str → List Str → List ListingFields → List ListingFields × Nat
  | 0, i, _, _, acc => (acc, i)
  | fuel + 1, i, sigs, keys, acc =>
    let cp := crawl i
    if !cp.containerOk then (acc, i + 1)
    else
      match cp.signature with
      | some s =>
        if s ∈ sigs then (acc, i + 1)
        else
          let r := dedupFold (processListings cp.rawListings) keys acc
          if cp.nextOk then crawlAux crawl fuel (i + 1) (sigs ++ [s]) r.1 r.2
          else (r.2, i + 1)
      | none =>
        let r := dedupFold (processListings cp.rawListings) keys acc
        if cp.nextOk then crawlAux crawl fuel (i + 1) sigs r.1 r.2
        else (r.2, i + 1)

/-- fetch_active_listings in scripts/one_shot.py (the dictionary
returned on a missing container carries no page count; zero stands in
for the absent field). -/
def fetchActiveListings (cfg : Config) (env : OpEnv) : Except Exn ListingsResult :=
  match opPrologue cfg env with
  | .error e => .error e
  | .ok (.navFailed li) => .ok ⟨[], 0, li, some .timeoutNav⟩
  | .ok (.blocked li _) => .ok ⟨[], 0, li, some .blockedOrChallenge⟩
  | .ok (.proceed li pg) =>
    if !pg.containerPresent then .ok ⟨[], 0, li, some .listingsContainerNotFound⟩
    else
      let r := crawlAux env.crawl cfg.maxListingPages 0 [] [] []
      .ok ⟨r.1, r.2, li, none⟩

/-- A raw entry whose shipping sibling holds an anchor while its
shipping text is a plain monetary amount. -/
def eAnchor : RawListing :=
  ⟨none, none, some (strL (r"$5.00")), none, some (strL (r"$3.99")), true,
   none, none, some (strL (r"3 available")), none⟩

/-- A raw entry with an explicit stable key, used twice to force a key
collision. -/
def eDup : RawListing :=
  ⟨some (strL (r"k")), none, some (strL (r"$5.00")), none, none, false,
   none, none, none, none⟩

/-- Whether an operation returned a structured result rather than
raising. -/
def isOkE {α : Type} : Except Exn α → Bool
  | .ok _ => true
  | .error _ => false

/-- A table whose header row is re-rendered in the body and whose
second row has a mismatched cell count. -/
def tableCex : HtmlTable :=
  ⟨some [strL (r"A"), strL (r"B")],
   [[[strL (r"A"), strL (r"B")], [strL (r"1"), strL (r"2"), strL (r"3")]]]⟩

/-- A traversal environment that starts on page 7 with a working pager
label but failing navigation. -/
def pagerCex : PagerEnv := ⟨7, fun _ => true, fun _ => false⟩

/-- A traversal environment that starts on page 1 with every engine
call succeeding. -/
def pagerOk : PagerEnv := ⟨1, fun _ => true, fun _ => true⟩

/-- A navigation environment whose third attempt is the first to
succeed. -/
def env7 : NavEnv := ⟨fun k => k == 2, fun _ => false⟩

/-- A configuration with credentials present and password login
enabled. -/
def cfg0 : Config := ⟨false, some (strL (r"e")), some (strL (r"p")), 20, 3⟩

/-- A configuration with no credentials configured. -/
def cfgNoCreds : Config := ⟨false, none, none, 20, 3⟩

/-- A login environment in which the page shows a verification
challenge and the authenticated signal never appears. -/
def lenvChal : LoginEnv := ⟨true, true, true, fun _ => false, true⟩

/-- A login environment with no challenge in which the authenticated
signal simply never appears within the polling budget. -/
def lenvTimeout : LoginEnv := ⟨true, true, true, fun _ => false, false⟩

/-- A crawl series whose every page lacks the listings container. -/
def crawl0 : Nat → CrawlPage := fun _ => ⟨false, none, [], false⟩

/-- A target page with no anti-automation text, not showing the
authenticated signal, with the listings container present. -/
def pgPlain : PageData :=
  ⟨[], [], false, none, true, none, none, none, [], false, false, [], [], []⟩

/-- A target page whose body carries the anti-automation phrase. -/
def pgBlocked : PageData :=
  ⟨strL (r"t"), strL (r"Please Verify you are a human now"), true, none, true,
   none, none, none, [], false, false, [], [], []⟩

/-- An environment that lands on the blocked page with a valid
session. -/
def envBlocked : OpEnv :=
  ⟨⟨true, true⟩, lenvTimeout, some pgBlocked, lenvTimeout, none, crawl0⟩

/-- An environment in which the first navigation lands on a page
without the authenticated signal and the re-navigation after the
supplementary login attempt exhausts its retries. -/
def envRetryNav : OpEnv :=
  ⟨⟨true, false⟩, lenvTimeout, some pgPlain, lenvTimeout, none, crawl0⟩

/-- An environment in which the first navigation exhausts its retries
while every login navigation would succeed. -/
def envNavFail : OpEnv :=
  ⟨⟨true, true⟩, lenvTimeout, none, lenvTimeout, some pgPlain, crawl0⟩

/- ------------------------------------------------------------------
Theorems.  Everything below is proved about the definitions above.
------------------------------------------------------------------ -/

theorem digitsVal_append_singleton (xs : Str) (c : Char) :
    digitsVal (xs ++ [c]) = 10 * digitsVal xs + (c.toNat - 48) := by
  simp [digitsVal, List.foldl_append]

theorem digitChar_val (n : Nat) (h : n < 10) : (Nat.digitChar n).toNat - 48 = n := by
  interval_cases n <;> rfl

theorem natDecimalAux_val : ∀ fuel n, n < fuel → digitsVal (natDecimalAux fuel n) = n := by
  intro fuel
  induction fuel with
  | zero => intro n h; omega
  | succ f ih =>
    intro n h
    by_cases h10 : n < 10
    · simp [natDecimalAux, h10, digitsVal, digitChar_val n h10]
    · have hdiv : n / 10 < n := Nat.div_lt_self (by omega) (by omega)
      have hf : n / 10 < f := by omega
      simp only [natDecimalAux, if_neg h10]
      rw [digitsVal_append_singleton, ih _ hf, digitChar_val _ (Nat.mod_lt n (by omega))]
      omega

theorem natDecimal_val (n : Nat) : digitsVal (natDecimal n) = n :=
  natDecimalAux_val (n + 1) n (Nat.lt_succ_self n)

theorem natDecimal_inj : Function.Injective natDecimal := by
  intro a b h
  have ha := natDecimal_val a
  rw [h, natDecimal_val] at ha
  omega

theorem natDecimal_ne_nil (n : Nat) : natDecimal n ≠ [] := by
  unfold natDecimal natDecimalAux
  by_cases h : n < 10 <;> simp [h]

theorem keyCand_inj (base : Str) : Function.Injective (keyCand base) := by
  intro a b h
  match a, b with
  | 0, 0 => rfl
  | 0, j + 1 =>
    exfalso
    have := congrArg List.length h
    simp [keyCand] at this
  | j + 1, 0 =>
    exfalso
    have := congrArg List.length h
    simp [keyCand] at this
  | j + 1, k + 1 =>
    simp only [keyCand] at h
    have h2 := List.append_cancel_left h
    have h3 : natDecimal (j + 2) = natDecimal (k + 2) := by
      injection h2
    have := natDecimal_inj h3
    omega

theorem exists_keyCand_not_mem (base : Str) (seen : List Str) :
    ∃ i, i ≤ seen.length ∧ keyCand base i ∉ seen := by
  by_contra hcon
  push_neg at hcon
  set L := (List.range (seen.length + 1)).map (keyCand base) with hL
  have hnd : L.Nodup := (List.nodup_range _).map (keyCand_inj base)
  have hsub : L.toFinset ⊆ seen.toFinset := by
    intro x hx
    rw [List.mem_toFinset] at hx ⊢
    obtain ⟨i, hi, rfl⟩ := List.mem_map.mp hx
    have hi2 : i ≤ seen.length := by
      have := List.mem_range.mp hi
      omega
    exact hcon i hi2
  have h1 : L.toFinset.card = L.length := List.toFinset_card_of_nodup hnd
  have h2 : L.toFinset.card ≤ seen.toFinset.card := Finset.card_le_card hsub
  have h3 : seen.toFinset.card ≤ seen.length := seen.toFinset_card_le
  have h4 : L.length = seen.length + 1 := by simp [hL]
  omega

theorem freshKeyAux_not_mem (base : Str) (seen : List Str) :
    ∀ fuel j, (∃ i, i < fuel + 1 ∧ keyCand base (j + i) ∉ seen) →
      freshKeyAux base seen fuel j ∉ seen := by
  intro fuel
  induction fuel with
  | zero =>
    intro j ⟨i, hi, hmem⟩
    have : i = 0 := by omega
    subst this
    simpa [freshKeyAux] using hmem
  | succ f ih =>
    intro j ⟨i, hi, hmem⟩
    by_cases hin : keyCand base j ∈ seen
    · have hi0 : i ≠ 0 := by
        intro h0; subst h0; simp at hmem; exact hmem hin
      obtain ⟨i2, rfl⟩ := Nat.exists_eq_succ_of_ne_zero hi0
      simp only [freshKeyAux, if_pos hin]
      exact ih (j + 1) ⟨i2, by omega, by
        have : j + 1 + i2 = j + (i2 + 1) := by omega
        rw [this]; exact hmem⟩
    · simp only [freshKeyAux, if_neg hin]
      exact hin

theorem freshKey_not_mem (base : Str) (seen : List Str) :
    freshKey base seen ∉ seen := by
  obtain ⟨i, hi, hmem⟩ := exists_keyCand_not_mem base seen
  exact freshKeyAux_not_mem base seen (seen.length + 1) 0 ⟨i, by omega, by simpa using hmem⟩

theorem freshKeyAux_shape (base : Str) (seen : List Str) :
    ∀ fuel j, ∃ m, freshKeyAux base seen fuel j = keyCand base m := by
  intro fuel
  induction fuel with
  | zero => intro j; exact ⟨j, rfl⟩
  | succ f ih =>
    intro j
    by_cases hin : keyCand base j ∈ seen
    · simpa [freshKeyAux, hin] using ih (j + 1)
    · exact ⟨j, by simp [freshKeyAux, hin]⟩

theorem freshKey_shape (base : Str) (seen : List Str) :
    freshKey base seen = base ∨
      ∃ m, freshKey base seen = base ++ '#' :: natDecimal m := by
  obtain ⟨m, hm⟩ := freshKeyAux_shape base seen (seen.length + 1) 0
  match m with
  | 0 => exact Or.inl hm
  | k + 1 => exact Or.inr ⟨k + 2, hm⟩

theorem joinBar_two_ne_nil (x y : Str) (rest : List Str) :
    joinBar (x :: y :: rest) ≠ [] := by
  simp [joinBar]

theorem fallbackKeyOf_ne_nil (e : RawListing) (p : Nat) : fallbackKeyOf e p ≠ [] :=
  joinBar_two_ne_nil _ _ _

theorem pyOrS_of_ne_nil (a b : Str) (h : a ≠ []) : pyOrS a b = a := by
  simp [pyOrS, h]

theorem baseKeyOf_eq (e : RawListing) (p idx : Nat) :
    baseKeyOf e p idx = pyOrS (strip (optS e.key)) (fallbackKeyOf e p) := by
  unfold baseKeyOf
  rw [pyOrS_of_ne_nil _ _ (fallbackKeyOf_ne_nil e p)]

theorem processAux_map_fieldsOf :
    ∀ (raws : List RawListing) (idx : Nat) (seen : List Str),
      (processAux raws idx seen).map fieldsOf = raws.filterMap processEntry := by
  intro raws
  induction raws with
  | nil => intro idx seen; rfl
  | cons e rest ih =>
    intro idx seen
    cases hp : priceOf e with
    | none => simp [processAux, hp, List.filterMap_cons, processEntry, ih]
    | some p => simp [processAux, hp, List.filterMap_cons, processEntry, ih, fieldsOf]

theorem processAux_key_not_mem :
    ∀ (raws : List RawListing) (idx : Nat) (seen : List Str) (r : ListingRecord),
      r ∈ processAux raws idx seen → r.key ∉ seen := by
  intro raws
  induction raws with
  | nil => intro idx seen r h; simp [processAux] at h
  | cons e rest ih =>
    intro idx seen r h
    cases hp : priceOf e with
    | none =>
      simp only [processAux, hp] at h
      exact ih _ _ r h
    | some p =>
      simp only [processAux, hp] at h
      rcases List.mem_cons.mp h with h1 | h2
      · subst h1
        exact freshKey_not_mem _ _
      · intro hmem
        exact ih _ _ r h2 (List.mem_append_left _ hmem)

theorem processAux_keys_nodup :
    ∀ (raws : List RawListing) (idx : Nat) (seen : List Str),
      ((processAux raws idx seen).map (fun r => r.key)).Nodup := by
  intro raws
  induction raws with
  | nil => intro idx seen; simp [processAux]
  | cons e rest ih =>
    intro idx seen
    cases hp : priceOf e with
    | none => simpa only [processAux, hp] using ih (idx + 1) seen
    | some p =>
      simp only [processAux, hp, List.map_cons]
      refine List.nodup_cons.mpr ⟨?_, ih _ _⟩
      intro hmem
      obtain ⟨r, hr, hkey⟩ := List.mem_map.mp hmem
      exact processAux_key_not_mem _ _ _ r hr
        (List.mem_append_right _ (by simp [hkey]))

theorem processAux_key_shape :
    ∀ (raws : List RawListing) (idx : Nat) (seen : List Str) (r : ListingRecord),
      r ∈ processAux raws idx seen →
        ∃ e, e ∈ raws ∧ ∃ p, priceOf e = some p ∧
          (r.key = pyOrS (strip (optS e.key)) (fallbackKeyOf e p) ∨
           ∃ m, r.key = pyOrS (strip (optS e.key)) (fallbackKeyOf e p) ++
             '#' :: natDecimal m) := by
  intro raws
  induction raws with
  | nil => intro idx seen r h; simp [processAux] at h
  | cons e rest ih =>
    intro idx seen r h
    cases hp : priceOf e with
    | none =>
      simp only [processAux, hp] at h
      obtain ⟨e2, he2, hrest⟩ := ih _ _ r h
      exact ⟨e2, List.mem_cons_of_mem _ he2, hrest⟩
    | some p =>
      simp only [processAux, hp] at h
      rcases List.mem_cons.mp h with h1 | h2
      · refine ⟨e, List.mem_cons_self _ _, p, hp, ?_⟩
        have hk : r.key = freshKey (baseKeyOf e p idx) seen := by rw [h1]
        rw [hk, ← baseKeyOf_eq e p idx]
        exact freshKey_shape _ _
      · obtain ⟨e2, he2, hrest⟩ := ih _ _ r h2
        exact ⟨e2, List.mem_cons_of_mem _ he2, hrest⟩

theorem length_filterMap_processEntry :
    ∀ raws : List RawListing, (raws.filterMap processEntry).length =
      (raws.filter fun e => (priceOf e).isSome).length := by
  intro raws
  induction raws with
  | nil => rfl
  | cons e rest ih =>
    cases hp : priceOf e with
    | none => simp [List.filterMap_cons, processEntry, hp, List.filter_cons, ih]
    | some p => simp [List.filterMap_cons, processEntry, hp, List.filter_cons, ih]

/-- C4 (amended): a raw entry is retained exactly when its price text
or its price context parses as a monetary amount; on retained entries
the keyless fields are exactly those of processEntry, in which shipping
is forced to zero when the shipping sibling holds an anchor, else is
zero on a free keyword, else the parsed monetary value, else zero, and
the quantity is the first digit run of the comma-stripped availability
text, defaulting to zero. -/
theorem c4_listing_extraction_amended (raws : List RawListing) :
    (processListings raws).map fieldsOf = raws.filterMap processEntry :=
  processAux_map_fieldsOf raws 0 []

/-- C4 counterexample: an entry whose shipping sibling holds an anchor
while its shipping text is the monetary amount 3.99 with no free
keyword; the claim predicts a shipping price of 3.99, the code produces
zero. -/
theorem c4_listing_extraction_counterexample :
    (processListings [eAnchor]).map (fun r => r.shippingPrice) = [0] ∧
    eAnchor.shippingHasAnchor = true ∧
    containsSub (strL (r"free")) (lowerStr (strip (strL (r"$3.99")))) = false ∧
    toMoneyFloat (strip (strL (r"$3.99"))) = some 399 ∧ (0 : Nat) ≠ 399 := by
  decide

/-- C6: within one extraction the dedup keys of the produced records
are pairwise distinct; no price-parsable entry is dropped; and every
key is the stripped raw DOM key when one is present, else the composite
fallback key, in either case possibly carrying a numeric collision
suffix. -/
theorem c6_dedup_keys (raws : List RawListing) :
    ((processListings raws).map (fun r => r.key)).Nodup ∧
    (processListings raws).length = (raws.filter fun e => (priceOf e).isSome).length ∧
    ∀ r ∈ processListings raws, ∃ e, e ∈ raws ∧ ∃ p, priceOf e = some p ∧
      (r.key = pyOrS (strip (optS e.key)) (fallbackKeyOf e p) ∨
       ∃ m, r.key = pyOrS (strip (optS e.key)) (fallbackKeyOf e p) ++
         '#' :: natDecimal m) := by
  refine ⟨processAux_keys_nodup raws 0 [], ?_, ?_⟩
  · have h1 := congrArg List.length (processAux_map_fieldsOf raws 0 [])
    simpa [length_filterMap_processEntry raws] using h1
  · intro r hr
    exact processAux_key_shape raws 0 [] r hr

/-- C6 witness: the same raw entry twice forces a collision; both
records survive with distinct keys, the second carrying a suffix. -/
theorem c6_dedup_keys_witness :
    ((processListings [eDup, eDup]).map (fun r => r.key)).Nodup ∧
    (processListings [eDup, eDup]).length = 2 ∧
    (∃ e, e ∈ [eDup, eDup] ∧ ∃ p, priceOf e = some p ∧
      ((strL (r"k") : Str) = pyOrS (strip (optS e.key)) (fallbackKeyOf e p) ∨
       ∃ m, (strL (r"k") : Str) = pyOrS (strip (optS e.key)) (fallbackKeyOf e p) ++
         '#' :: natDecimal m)) := by
  refine ⟨(c6_dedup_keys [eDup, eDup]).1, ?_, ?_⟩
  · rw [(c6_dedup_keys [eDup, eDup]).2.1]; decide
  · have h := (c6_dedup_keys [eDup, eDup]).2.2
    have hmem : (⟨strL (r"k"), conditionOf eDup, 500, 0, sellerNameOf eDup,
        none, 0, none⟩ : ListingRecord) ∈ processListings [eDup, eDup] := by decide
    simpa using h _ hmem

theorem length_filterMap_eq_length_filter {α β : Type} (f : α → Option β) :
    ∀ l : List α, (l.filterMap f).length = (l.filter fun a => (f a).isSome).length := by
  intro l
  induction l with
  | nil => rfl
  | cons a rest ih =>
    cases hf : f a with
    | none => simp [List.filterMap_cons, hf, List.filter_cons, ih]
    | some b => simp [List.filterMap_cons, hf, List.filter_cons, ih]

theorem extractRowsAux_eq (h : List Str) :
    ∀ (trs : List (List Str)) (acc : List RowOut),
      extractRowsAux h trs acc = acc ++ trs.filterMap (rowFn h) := by
  intro trs
  induction trs with
  | nil => intro acc; simp [extractRowsAux]
  | cons tr rest ih =>
    intro acc
    by_cases h1 : h ≠ [] ∧ tr = h
    · have hrow : rowFn h tr = none := by rw [rowFn, if_pos h1]
      simp [extractRowsAux, if_pos h1, List.filterMap_cons, hrow, ih]
    · by_cases h2 : h ≠ [] ∧ h.length = tr.length
      · have hrow : rowFn h tr = some (.mapping (mkPairs h tr)) := by
          rw [rowFn, if_neg h1, if_pos h2]
        simp [extractRowsAux, if_neg h1, if_pos h2, List.filterMap_cons, hrow, ih]
      · have hrow : rowFn h tr = some (.cols tr) := by
          rw [rowFn, if_neg h1, if_neg h2]
        simp [extractRowsAux, if_neg h1, if_neg h2, List.filterMap_cons, hrow, ih]

theorem extractBodiesAux_eq (h : List Str) :
    ∀ (bodies : List (List (List Str))) (acc : List RowOut),
      extractBodiesAux h bodies acc = acc ++ bodies.flatten.filterMap (rowFn h) := by
  intro bodies
  induction bodies with
  | nil => intro acc; simp [extractBodiesAux]
  | cons b rest ih =>
    intro acc
    simp [extractBodiesAux, ih, extractRowsAux_eq, List.filterMap_append]

theorem extractTable_rows (t : HtmlTable) :
    (extractTable t).rows = t.bodies.flatten.filterMap (rowFn (headersOf t)) := by
  simp [extractTable, extractBodiesAux_eq]

/-- C5 (amended): headers come from the explicit header section
(cells with nonempty stripped text) when present, else from the first
row; a body row is skipped exactly when the headers are nonempty and
the row duplicates them; every other row yields exactly one entry,
which is a label-to-value mapping exactly when the headers are
nonempty and the cell count matches, and a positional list otherwise;
in particular every row with a mismatched cell count is preserved as a
positional entry. -/
theorem c5_table_extraction_amended (t : HtmlTable) :
    (extractTable t).headers = headersOf t ∧
    (extractTable t).rows = t.bodies.flatten.filterMap (rowFn (headersOf t)) ∧
    (∀ cells : List Str, rowFn (headersOf t) cells = none ↔
      (headersOf t ≠ [] ∧ cells = headersOf t)) ∧
    (∀ tr ∈ t.bodies.flatten, tr.length ≠ (headersOf t).length →
      RowOut.cols tr ∈ (extractTable t).rows) ∧
    (extractTable t).rows.length =
      (t.bodies.flatten.filter fun tr => (rowFn (headersOf t) tr).isSome).length := by
  refine ⟨rfl, extractTable_rows t, ?_, ?_, ?_⟩
  · intro cells
    constructor
    · intro hnone
      by_contra hcon
      rw [rowFn, if_neg hcon] at hnone
      by_cases h2 : headersOf t ≠ [] ∧ (headersOf t).length = cells.length
      · rw [if_pos h2] at hnone; exact Option.noConfusion hnone
      · rw [if_neg h2] at hnone; exact Option.noConfusion hnone
    · intro hdup
      rw [rowFn, if_pos hdup]
  · intro tr htr hlen
    rw [extractTable_rows t]
    refine List.mem_filterMap.mpr ⟨tr, htr, ?_⟩
    have h1 : ¬(headersOf t ≠ [] ∧ tr = headersOf t) := by
      rintro ⟨-, rfl⟩; exact hlen rfl
    have h2 : ¬(headersOf t ≠ [] ∧ (headersOf t).length = tr.length) := by
      rintro ⟨-, hl⟩; exact hlen hl.symm
    rw [rowFn, if_neg h1, if_neg h2]
  · rw [extractTable_rows t]
    exact length_filterMap_eq_length_filter _ _

/-- C5 counterexample: in a table whose body re-renders the header row
and also holds a row with a mismatched cell count, the extractor
yields one row entry for two body rows, so a table with mismatched
header and row cell counts does not yield one entry per table row. -/
theorem c5_table_extraction_counterexample :
    (extractTable tableCex).rows.length = 1 ∧
    tableCex.bodies.flatten.length = 2 ∧
    (∃ tr ∈ tableCex.bodies.flatten, tr.length ≠ (headersOf tableCex).length) ∧
    (1 : Nat) < 2 := by
  decide

/-- C5 witness: the amended theorem applied to the concrete table
keeps the mismatched row as a positional entry. -/
theorem c5_table_extraction_witness :
    RowOut.cols [strL (r"1"), strL (r"2"), strL (r"3")] ∈ (extractTable tableCex).rows :=
  (c5_table_extraction_amended tableCex).2.2.2.1 _ (by decide) (by decide)

theorem stepLoop_true (env : PagerEnv) (target last step : Int) :
    ∀ (fuel : Nat) (cur : Int) (st : PagerSt),
      (stepLoop env target last step fuel cur st).1 = true →
      (stepLoop env target last step fuel cur st).2.1 = target := by
  intro fuel
  induction fuel with
  | zero =>
    intro cur st h
    simp only [stepLoop] at h ⊢
    exact of_decide_eq_true h
  | succ f ih =>
    intro cur st h
    by_cases hc : cur = target
    · simp [stepLoop, hc]
    · simp only [stepLoop, if_neg hc] at h ⊢
      by_cases hn : max 1 (min last (cur + step)) = cur
      · rw [if_pos hn] at h ⊢
        exact absurd (of_decide_eq_true h) hc
      · rw [if_neg hn] at h ⊢
        by_cases hg : (doGoto env st (max 1 (min last (cur + step)))).1 = true
        · rw [if_pos hg] at h ⊢
          exact ih _ _ h
        · rw [if_neg hg] at h ⊢
          simp at h

theorem strideLoop_true (env : PagerEnv) (target last : Int) :
    ∀ (fuel : Nat) (cur : Int) (st : PagerSt),
      (strideLoop env target last fuel cur st).1 = true →
      (strideLoop env target last fuel cur st).2.1 = target := by
  intro fuel
  induction fuel with
  | zero =>
    intro cur st h
    simp only [strideLoop] at h ⊢
    exact of_decide_eq_true h
  | succ f ih =>
    intro cur st h
    by_cases hc : cur = target
    · simp [strideLoop, hc]
    · simp only [strideLoop, if_neg hc] at h ⊢
      set next := max 1 (min last (if (target - cur).natAbs ≤ 5 then target
        else cur + (if target - cur > 0 then 5 else -5))) with hnext
      by_cases hn : next = cur
      · rw [if_pos hn] at h ⊢
        exact absurd (of_decide_eq_true h) hc
      · rw [if_neg hn] at h ⊢
        by_cases hg : (doGoto env st next).1 = true
        · rw [if_pos hg] at h ⊢
          exact ih _ _ h
        · rw [if_neg hg] at h ⊢
          simp at h

theorem navPhase2_true (env : PagerEnv) (target last cur : Int) (st : PagerSt) :
    (navPhase2 env target last cur st).1 = true →
    (navPhase2 env target last cur st).2.1 = target := by
  intro h
  unfold navPhase2 at h ⊢
  by_cases hc : cur = target
  · simp [hc]
  · rw [if_neg hc] at h ⊢
    by_cases hb : target ≤ 5 ∨ last ≤ 5
    · rw [if_pos hb] at h ⊢
      exact stepLoop_true env target last _ 20 cur st h
    · rw [if_neg hb] at h ⊢
      set wp : Int := if (target - 5).natAbs ≤ (last - target).natAbs then 5 else last
        with hwp
      by_cases hv : cur ≠ wp
      · rw [if_pos hv] at h ⊢
        set sq := if wp = 5 ∧ cur < 5 then seqLoop env 10 cur st else (true, cur, st)
          with hsq
        by_cases hs1 : sq.1 = false
        · rw [if_pos hs1] at h
          simp at h
        · rw [if_neg hs1] at h ⊢
          by_cases hs2 : sq.2.1 ≠ wp
          · rw [if_pos hs2] at h ⊢
            by_cases hg : (doGoto env sq.2.2 wp).1 = true
            · rw [if_pos hg] at h ⊢
              exact strideLoop_true env target last 20 _ _ h
            · rw [if_neg hg] at h
              simp at h
          · rw [if_neg hs2] at h ⊢
            exact strideLoop_true env target last 20 _ _ h
      · rw [if_neg hv] at h ⊢
        exact strideLoop_true env target last 20 cur st h

/-- C3 (amended): the target is clamped to the interval from one to the
last page (a nonpositive last page defaulting to one); a first
detection equal to the clamped target is an immediate no-op success
with no navigation call; and whenever the traversal reports success its
final current value equals the clamped target and so lies in the
interval.  On a failure return the current value can remain outside
the interval, as the counterexample shows. -/
theorem c3_pagination_amended (env : PagerEnv) (targetPage lastPage : Int) :
    (1 ≤ max 1 (min (if lastPage ≤ 0 then 1 else lastPage) targetPage) ∧
     max 1 (min (if lastPage ≤ 0 then 1 else lastPage) targetPage) ≤
       (if lastPage ≤ 0 then 1 else lastPage)) ∧
    ((pyOrI (doDetect env ⟨env.initPage, 0, 0⟩).1 1 =
        max 1 (min (if lastPage ≤ 0 then 1 else lastPage) targetPage)) →
      navigateToPageNumber env targetPage lastPage =
        (true, max 1 (min (if lastPage ≤ 0 then 1 else lastPage) targetPage),
         ⟨env.initPage, 1, 0⟩)) ∧
    ((navigateToPageNumber env targetPage lastPage).1 = true →
      (navigateToPageNumber env targetPage lastPage).2.1 =
        max 1 (min (if lastPage ≤ 0 then 1 else lastPage) targetPage) ∧
      1 ≤ (navigateToPageNumber env targetPage lastPage).2.1 ∧
      (navigateToPageNumber env targetPage lastPage).2.1 ≤
        (if lastPage ≤ 0 then 1 else lastPage)) := by
  have hbounds : 1 ≤ max 1 (min (if lastPage ≤ 0 then 1 else lastPage) targetPage) ∧
      max 1 (min (if lastPage ≤ 0 then 1 else lastPage) targetPage) ≤
        (if lastPage ≤ 0 then 1 else lastPage) := by
    constructor
    · exact le_max_left 1 _
    · by_cases h : lastPage ≤ 0
      · rw [if_pos h]
        omega
      · rw [if_neg h]
        omega
  refine ⟨hbounds, ?_, ?_⟩
  · intro h
    unfold navigateToPageNumber
    unfold navPhase2
    rw [if_pos h, h]
    rfl
  · intro h
    have h2 := navPhase2_true env _ _ _ _ h
    have h3 : (navigateToPageNumber env targetPage lastPage).2.1 =
        max 1 (min (if lastPage ≤ 0 then 1 else lastPage) targetPage) := h2
    exact ⟨h3, by rw [h3]; exact hbounds.1, by rw [h3]; exact hbounds.2⟩

/-- C3 counterexample: starting on page 7 with a readable pager but
failing navigation, a request for page 2 of 3 returns failure with the
current page still 7, outside the interval from one to the last
page. -/
theorem c3_pagination_counterexample :
    (navigateToPageNumber pagerCex 2 3).1 = false ∧
    (navigateToPageNumber pagerCex 2 3).2.1 = 7 ∧
    ¬(1 ≤ (navigateToPageNumber pagerCex 2 3).2.1 ∧
      (navigateToPageNumber pagerCex 2 3).2.1 ≤ 3) := by
  decide

/-- C3 witness: the amended theorem applied to a concrete successful
traversal from page 1 to page 3 of 5. -/
theorem c3_pagination_witness :
    (navigateToPageNumber pagerOk 3 5).2.1 = 3 ∧
    1 ≤ (navigateToPageNumber pagerOk 3 5).2.1 ∧
    (navigateToPageNumber pagerOk 3 5).2.1 ≤ 5 := by
  have h := (c3_pagination_amended pagerOk 3 5).2.2 (by decide)
  refine ⟨?_, ?_, ?_⟩
  · rw [h.1]; decide
  · exact h.2.1
  · simpa using h.2.2

theorem gotoAux_quiesce_irrelevant (a q1 q2 : Nat → Bool) :
    ∀ (fuel k : Nat) (ws : List Nat),
      gotoAux ⟨a, q1⟩ fuel k ws = gotoAux ⟨a, q2⟩ fuel k ws := by
  intro fuel
  induction fuel with
  | zero => intro k ws; rfl
  | succ f ih =>
    intro k ws
    by_cases h : a k <;> simp [gotoAux, h, ih]

theorem gotoAux_attempts_le (env : NavEnv) :
    ∀ (fuel k : Nat) (ws : List Nat), (gotoAux env fuel k ws).attempts ≤ k + fuel := by
  intro fuel
  induction fuel with
  | zero => intro k ws; simp [gotoAux]
  | succ f ih =>
    intro k ws
    by_cases h : env.attemptOk k
    · have h2 : (gotoAux env (f + 1) k ws).attempts = k + 1 := by
        simp [gotoAux, h]
      omega
    · simp only [gotoAux, if_neg h]
      have := ih (k + 1) (ws ++ [500 * (k + 1)])
      omega

theorem gotoAux_success_spec (env : NavEnv) :
    ∀ (fuel k : Nat) (ws : List Nat), (gotoAux env fuel k ws).success = true →
      env.attemptOk ((gotoAux env fuel k ws).attempts - 1) = true ∧
      ∀ j, k ≤ j → j < (gotoAux env fuel k ws).attempts - 1 →
        env.attemptOk j = false := by
  intro fuel
  induction fuel with
  | zero => intro k ws h; simp [gotoAux] at h
  | succ f ih =>
    intro k ws h
    by_cases hok : env.attemptOk k
    · refine ⟨by simp [gotoAux, hok], ?_⟩
      intro j hj1 hj2
      simp [gotoAux, hok] at hj2
      omega
    · simp only [gotoAux, if_neg hok] at h ⊢
      refine ⟨(ih (k + 1) _ h).1, ?_⟩
      intro j hj1 hj2
      by_cases hjk : j = k
      · subst hjk
        simpa using hok
      · exact (ih (k + 1) _ h).2 j (by omega) hj2

theorem gotoAux_failure_spec (env : NavEnv) :
    ∀ (fuel k : Nat) (ws : List Nat), (gotoAux env fuel k ws).success = false →
      (∀ j, k ≤ j → j < k + fuel → env.attemptOk j = false) ∧
      (gotoAux env fuel k ws).attempts = k + fuel := by
  intro fuel
  induction fuel with
  | zero =>
    intro k ws _
    exact ⟨fun j h1 h2 => by omega, by simp [gotoAux]⟩
  | succ f ih =>
    intro k ws h
    by_cases hok : env.attemptOk k
    · simp [gotoAux, hok] at h
    · simp only [gotoAux, if_neg hok] at h ⊢
      refine ⟨?_, by rw [(ih (k + 1) _ h).2]; omega⟩
      intro j hj1 hj2
      by_cases hjk : j = k
      · subst hjk
        simpa using hok
      · exact (ih (k + 1) _ h).1 j (by omega) (by omega)

theorem gotoAux_waits_spec (env : NavEnv) :
    ∀ (fuel k : Nat) (ws : List Nat), ws.length = k →
      (∀ i, (h : i < ws.length) → ws[i] = 500 * (i + 1)) →
      ∀ i, (h : i < (gotoAux env fuel k ws).waits.length) →
        (gotoAux env fuel k ws).waits[i] = 500 * (i + 1) := by
  intro fuel
  induction fuel with
  | zero =>
    intro k ws hlen hws i h
    exact hws i (by simpa [gotoAux] using h)
  | succ f ih =>
    intro k ws hlen hws i h
    by_cases hok : env.attemptOk k
    · simp only [gotoAux, if_pos hok] at h ⊢
      exact hws i h
    · simp only [gotoAux, if_neg hok] at h ⊢
      refine ih (k + 1) (ws ++ [500 * (k + 1)]) (by simp [hlen]) ?_ i h
      intro i2 h2
      rcases Nat.lt_or_ge i2 ws.length with hi | hi
      · rw [List.getElem_append_left hi]
        exact hws i2 hi
      · have hi2 : i2 = ws.length := by
          have := List.length_append ws [500 * (k + 1)]
          simp at h2
          omega
        subst hi2
        simp [hlen]

/-- C7: the resilient navigator makes at most one more attempt than
the configured retry count; the quiescence outcomes never influence
the trace; on success the first successful attempt terminates the loop
with every earlier attempt failed; the navigation error is raised only
when every attempt has failed; and the waits between attempts grow
linearly as 500 milliseconds times the attempt number. -/
theorem c7_goto_retries (retryTimes : Nat) (env : NavEnv) :
    (gotoWithRetries retryTimes env).attempts ≤ retryTimes + 1 ∧
    (∀ q : Nat → Bool, gotoWithRetries retryTimes ⟨env.attemptOk, q⟩ =
      gotoWithRetries retryTimes env) ∧
    ((gotoWithRetries retryTimes env).success = true →
      env.attemptOk ((gotoWithRetries retryTimes env).attempts - 1) = true ∧
      ∀ j < (gotoWithRetries retryTimes env).attempts - 1, env.attemptOk j = false) ∧
    ((gotoWithRetries retryTimes env).success = false →
      (∀ j < retryTimes + 1, env.attemptOk j = false) ∧
      (gotoWithRetries retryTimes env).attempts = retryTimes + 1) ∧
    (∀ i, (h : i < (gotoWithRetries retryTimes env).waits.length) →
      (gotoWithRetries retryTimes env).waits[i] = 500 * (i + 1)) := by
  refine ⟨?_, ?_, ?_, ?_, ?_⟩
  · simpa using gotoAux_attempts_le env (retryTimes + 1) 0 []
  · intro q
    exact gotoAux_quiesce_irrelevant env.attemptOk q env.quiesceOk (retryTimes + 1) 0 []
  · intro h
    refine ⟨(gotoAux_success_spec env (retryTimes + 1) 0 [] h).1, ?_⟩
    intro j hj
    exact (gotoAux_success_spec env (retryTimes + 1) 0 [] h).2 j (Nat.zero_le j) hj
  · intro h
    refine ⟨?_, by simpa using (gotoAux_failure_spec env (retryTimes + 1) 0 [] h).2⟩
    intro j hj
    exact (gotoAux_failure_spec env (retryTimes + 1) 0 [] h).1 j (Nat.zero_le j) (by omega)
  · exact gotoAux_waits_spec env (retryTimes + 1) 0 [] rfl (by intro i h; simp at h)

/-- C7 witness: with the third attempt the first to succeed and three
configured retries, the trace makes at most four attempts, the last
attempt made is a success, and the first attempt failed. -/
theorem c7_goto_retries_witness :
    (gotoWithRetries 3 env7).attempts ≤ 4 ∧
    env7.attemptOk ((gotoWithRetries 3 env7).attempts - 1) = true ∧
    env7.attemptOk 0 = false := by
  refine ⟨(c7_goto_retries 3 env7).1, ?_, ?_⟩
  · exact ((c7_goto_retries 3 env7).2.2.1 (by decide)).1
  · exact ((c7_goto_retries 3 env7).2.2.1 (by decide)).2 0 (by decide)

/-- C8: the session-state file is written only by a login run whose
post-submission polling observes the authenticated signal; in
particular a run on a challenge page whose polling never observes the
signal leaves the persisted state untouched. -/
theorem c8_challenge_non_persistence (cfg : Config) (lenv : LoginEnv) :
    (∀ r : LoginResult, doLoginFlow cfg lenv = .ok r → r.stateWritten = true →
      pollSuccess lenv = true) ∧
    (lenv.challengeShown = true → pollSuccess lenv = false →
      ∀ r : LoginResult, doLoginFlow cfg lenv = .ok r → r.stateWritten = false) := by
  constructor
  · intro r hr hw
    unfold doLoginFlow at hr
    split_ifs at hr with h1 h2 h3 h4
    · have h5 := Except.ok.inj hr
      rw [← h5] at hw
      simp at hw
    · have h5 := Except.ok.inj hr
      rw [← h5] at hw
      simp at hw
    · exact h4
    · have h5 := Except.ok.inj hr
      rw [← h5] at hw
      simp at hw
  · intro _ hpoll r hr
    unfold doLoginFlow at hr
    split_ifs at hr with h1 h2 h3 h4
    · rw [← Except.ok.inj hr]
    · rw [← Except.ok.inj hr]
    · rw [hpoll] at h4
      simp at h4
    · rw [← Except.ok.inj hr]

/-- C8 witness: a challenge run with no authenticated signal returns
the verification failure and writes no state. -/
theorem c8_challenge_non_persistence_witness :
    doLoginFlow cfg0 lenvChal = .ok ⟨false, some .loginVerificationFailed, false⟩ ∧
    LoginResult.stateWritten ⟨false, some .loginVerificationFailed, false⟩ = false := by
  refine ⟨by rfl, ?_⟩
  exact (c8_challenge_non_persistence cfg0 lenvChal).2 rfl (by rfl) _ (by rfl)

/-- C9 counterexample: a run on a challenge page and a run that merely
times out report the same reason, the verification failure, so
challenge detection does not have its own reported reason. -/
theorem c9_login_reasons_counterexample :
    lenvChal.challengeShown = true ∧ lenvTimeout.challengeShown = false ∧
    doLoginFlow cfg0 lenvChal = .ok ⟨false, some .loginVerificationFailed, false⟩ ∧
    doLoginFlow cfg0 lenvTimeout = .ok ⟨false, some .loginVerificationFailed, false⟩ :=
  ⟨rfl, rfl, rfl, rfl⟩

/-- C9 (amended): the login flow reports missing credentials, selector
resolution failure and verification timeout as three pairwise distinct
reasons; challenge detection is not implemented, and a challenge run
surfaces as the same verification failure as a plain timeout. -/
theorem c9_login_reasons_amended (cfg : Config) (lenv : LoginEnv) :
    (credsTruthy cfg = false →
      doLoginFlow cfg lenv = .ok ⟨false, some .missingCredentials, false⟩) ∧
    (credsTruthy cfg = true → lenv.gotoOk = true →
      (lenv.emailFillOk && lenv.passFillOk) = false →
      doLoginFlow cfg lenv = .ok ⟨false, some .selectorsNotFound, false⟩) ∧
    (credsTruthy cfg = true → lenv.gotoOk = true →
      (lenv.emailFillOk && lenv.passFillOk) = true → pollSuccess lenv = false →
      doLoginFlow cfg lenv = .ok ⟨false, some .loginVerificationFailed, false⟩) ∧
    (LoginErr.missingCredentials ≠ LoginErr.selectorsNotFound ∧
     LoginErr.missingCredentials ≠ LoginErr.loginVerificationFailed ∧
     LoginErr.selectorsNotFound ≠ LoginErr.loginVerificationFailed) := by
  refine ⟨?_, ?_, ?_, by decide⟩
  · intro h
    simp [doLoginFlow, h]
  · intro h1 h2 h3
    simp [doLoginFlow, h1, h2, h3]
  · intro h1 h2 h3 h4
    simp [doLoginFlow, h1, h2, h3, h4]

/-- C9 witness: the amended theorem applied to a configuration with no
credentials. -/
theorem c9_login_reasons_witness :
    doLoginFlow cfgNoCreds lenvTimeout = .ok ⟨false, some .missingCredentials, false⟩ :=
  (c9_login_reasons_amended cfgNoCreds lenvTimeout).1 (by decide)

theorem doLoginFlow_ok (cfg : Config) (lenv : LoginEnv) (h : lenv.gotoOk = true) :
    ∃ r, doLoginFlow cfg lenv = .ok r := by
  unfold doLoginFlow
  split_ifs with h1 h2 h3 h4
  · exact ⟨_, rfl⟩
  · rw [h] at h2
    simp at h2
  · exact ⟨_, rfl⟩
  · exact ⟨_, rfl⟩
  · exact ⟨_, rfl⟩

theorem ensureLoggedIn_ok (cfg : Config) (env : EnsureEnv) (lenv : LoginEnv)
    (h : lenv.gotoOk = true) : ∃ li, ensureLoggedIn cfg env lenv = .ok li := by
  unfold ensureLoggedIn
  split_ifs with h1 h2 h3
  · exact ⟨_, rfl⟩
  · exact ⟨_, rfl⟩
  · obtain ⟨r, hr⟩ := doLoginFlow_ok cfg lenv h
    exact ⟨.flow r, by rw [hr]; rfl⟩
  · exact ⟨_, rfl⟩

theorem opPrologue_ok (cfg : Config) (env : OpEnv)
    (h1 : env.ensureLogin.gotoOk = true) (h2 : env.retryLogin.gotoOk = true)
    (h3 : env.nav2.isSome = true) : ∃ p, opPrologue cfg env = .ok p := by
  unfold opPrologue
  obtain ⟨li, hli⟩ := ensureLoggedIn_ok cfg env.ensure env.ensureLogin h1
  rw [hli]
  cases hn : env.nav1 with
  | none => exact ⟨_, rfl⟩
  | some pg =>
    dsimp only
    by_cases hrc : retryCond cfg pg = true
    · rw [if_pos hrc]
      obtain ⟨r, hr⟩ := doLoginFlow_ok cfg env.retryLogin h2
      rw [hr]
      cases hn2 : env.nav2 with
      | none => rw [hn2] at h3; simp at h3
      | some pg2 =>
        dsimp only
        cases hab : antiBotCheck pg2 with
        | none => exact ⟨Prologue.proceed (LoginInfo.retried li r) pg2, rfl⟩
        | some e => exact ⟨Prologue.blocked (LoginInfo.retried li r) pg2, rfl⟩
    · rw [if_neg hrc]
      cases hab : antiBotCheck pg with
      | none => exact ⟨Prologue.proceed li pg, rfl⟩
      | some e => exact ⟨Prologue.blocked li pg, rfl⟩

theorem opPrologue_navFailed (cfg : Config) (env : OpEnv) (li : LoginInfo)
    (hnav : env.nav1 = none)
    (hli : ensureLoggedIn cfg env.ensure env.ensureLogin = .ok li) :
    opPrologue cfg env = .ok (.navFailed li) := by
  unfold opPrologue
  rw [hli, hnav]

/-- C1 counterexample: when the page after the first navigation lacks
the authenticated signal, credentials are configured, the supplementary
login flow completes, and the re-navigation then exhausts its retries,
every public operation raises instead of returning a structured
timeout result. -/
theorem c1_propagation_counterexample :
    fetchLastSoldOnce cfg0 envRetryNav = .error .retryNav ∧
    fetchSalesSnapshot cfg0 envRetryNav = .error .retryNav ∧
    fetchPagesInProduct cfg0 envRetryNav = .error .retryNav ∧
    (fetchActiveListingsInPage cfg0 envRetryNav 1).1 = .error .retryNav ∧
    fetchActiveListings cfg0 envRetryNav = .error .retryNav :=
  ⟨rfl, rfl, rfl, rfl, rfl⟩

/-- C1 (amended): whenever the login-flow page loads and the
re-navigation after a supplementary login attempt succeeds, every
public operation returns a structured result, and a first-navigation
retry exhaustion is reported inside that result as the navigation
timeout error; the only conditions that can escape as exceptions are
the two unwrapped navigations named by Exn. -/
theorem c1_propagation_amended (cfg : Config) (env : OpEnv)
    (h1 : env.ensureLogin.gotoOk = true) (h2 : env.retryLogin.gotoOk = true)
    (h3 : env.nav2.isSome = true) :
    (isOkE (fetchLastSoldOnce cfg env) = true ∧
     isOkE (fetchSalesSnapshot cfg env) = true ∧
     isOkE (fetchPagesInProduct cfg env) = true ∧
     (∀ t : Int, isOkE (fetchActiveListingsInPage cfg env t).1 = true) ∧
     isOkE (fetchActiveListings cfg env) = true) ∧
    (env.nav1 = none →
      (fetchLastSoldOnce cfg env).map (fun r => r.error) = .ok (some .timeoutNav) ∧
      (fetchSalesSnapshot cfg env).map (fun r => r.error) = .ok (some .timeoutNav) ∧
      (fetchPagesInProduct cfg env).map (fun r => r.error) = .ok (some .timeoutNav) ∧
      (∀ t : Int, 1 ≤ t →
        (fetchActiveListingsInPage cfg env t).1.map (fun r => r.error) =
          .ok (some .timeoutNav)) ∧
      (fetchActiveListings cfg env).map (fun r => r.error) = .ok (some .timeoutNav)) := by
  obtain ⟨p, hp⟩ := opPrologue_ok cfg env h1 h2 h3
  constructor
  · refine ⟨?_, ?_, ?_, ?_, ?_⟩
    · cases p <;> simp [fetchLastSoldOnce, hp, isOkE]
    · cases p with
      | navFailed li => simp [fetchSalesSnapshot, hp, isOkE]
      | blocked li pg => simp [fetchSalesSnapshot, hp, isOkE]
      | proceed li pg =>
        simp only [fetchSalesSnapshot, hp]
        split_ifs <;> simp [isOkE]
    · cases p with
      | navFailed li => simp [fetchPagesInProduct, hp, isOkE]
      | blocked li pg => simp [fetchPagesInProduct, hp, isOkE]
      | proceed li pg =>
        simp only [fetchPagesInProduct, hp]
        split_ifs <;> simp [isOkE]
    · intro t
      by_cases ht : t < 1
      · simp [fetchActiveListingsInPage, ht, isOkE]
      · cases p with
        | navFailed li => simp [fetchActiveListingsInPage, ht, hp, isOkE]
        | blocked li pg => simp [fetchActiveListingsInPage, ht, hp, isOkE]
        | proceed li pg =>
          simp only [fetchActiveListingsInPage, if_neg ht, hp]
          split_ifs <;> simp [isOkE]
    · cases p with
      | navFailed li => simp [fetchActiveListings, hp, isOkE]
      | blocked li pg => simp [fetchActiveListings, hp, isOkE]
      | proceed li pg =>
        simp only [fetchActiveListings, hp]
        split_ifs <;> simp [isOkE]
  · intro hnav
    obtain ⟨li, hli⟩ := ensureLoggedIn_ok cfg env.ensure env.ensureLogin h1
    have hP := opPrologue_navFailed cfg env li hnav hli
    refine ⟨?_, ?_, ?_, ?_, ?_⟩
    · simp [fetchLastSoldOnce, hP, Except.map]
    · simp [fetchSalesSnapshot, hP, Except.map]
    · simp [fetchPagesInProduct, hP, Except.map]
    · intro t ht
      have ht2 : ¬ t < 1 := by omega
      simp [fetchActiveListingsInPage, ht2, hP, Except.map]
    · simp [fetchActiveListings, hP, Except.map]

/-- C1 witness: the amended theorem applied to an environment whose
first navigation exhausts its retries while both login navigations
succeed. -/
theorem c1_propagation_witness :
    isOkE (fetchLastSoldOnce cfg0 envNavFail) = true ∧
    (fetchLastSoldOnce cfg0 envNavFail).map (fun r => r.error) = .ok (some .timeoutNav) ∧
    (fetchActiveListingsInPage cfg0 envNavFail 1).1.map (fun r => r.error) =
      .ok (some .timeoutNav) := by
  have h := c1_propagation_amended cfg0 envNavFail rfl rfl rfl
  exact ⟨h.1.1, (h.2 rfl).1, (h.2 rfl).2.2.2.1 1 (by decide)⟩

theorem isPrefixB_map (f : Char → Char) :
    ∀ n h : Str, isPrefixB n h = true → isPrefixB (n.map f) (h.map f) = true := by
  intro n
  induction n with
  | nil => intro h _; rfl
  | cons a as ih =>
    intro h hp
    cases h with
    | nil => simp [isPrefixB] at hp
    | cons b bs =>
      simp only [isPrefixB, Bool.and_eq_true, beq_iff_eq] at hp
      obtain ⟨rfl, hp2⟩ := hp
      simp only [List.map_cons, isPrefixB, Bool.and_eq_true, beq_iff_eq]
      exact ⟨by trivial, ih bs hp2⟩

theorem containsSub_map (f : Char → Char) (n : Str) :
    ∀ h : Str, containsSub n h = true → containsSub (n.map f) (h.map f) = true := by
  intro h
  induction h with
  | nil =>
    intro hp
    simp only [containsSub] at hp ⊢
    simpa using isPrefixB_map f n [] hp
  | cons c rest ih =>
    intro hp
    simp only [containsSub, Bool.or_eq_true] at hp ⊢
    rcases hp with hp | hp
    · exact Or.inl (isPrefixB_map f n (c :: rest) hp)
    · exact Or.inr (ih hp)

theorem antiBot_of_phrase (pg : PageData)
    (h : containsSub (strL (r"Verify you are a human")) pg.body = true ∨
         containsSub (strL (r"access denied")) (lowerStr pg.title) = true) :
    antiBotCheck pg = some .blockedOrChallenge := by
  unfold antiBotCheck
  rcases h with h | h
  · have h2 := containsSub_map Char.toLower _ pg.body h
    have h3 : (strL (r"Verify you are a human")).map Char.toLower =
        strL (r"verify you are a human") := by decide
    rw [h3] at h2
    have hcond : (containsSub (strL (r"access denied")) (lowerStr pg.title)
        || containsSub (strL (r"verify you are a human")) (lowerStr pg.body)
        || containsSub (strL (r"are you human")) (lowerStr pg.body)) = true := by
      rw [Bool.or_eq_true, Bool.or_eq_true]
      exact Or.inl (Or.inr h2)
    rw [if_pos hcond]
  · have hcond : (containsSub (strL (r"access denied")) (lowerStr pg.title)
        || containsSub (strL (r"verify you are a human")) (lowerStr pg.body)
        || containsSub (strL (r"are you human")) (lowerStr pg.body)) = true := by
      rw [Bool.or_eq_true, Bool.or_eq_true]
      exact Or.inl (Or.inl h)
    rw [if_pos hcond]

theorem opPrologue_blocked (cfg : Config) (env : OpEnv) (pg : PageData)
    (hprobe : probePage cfg env = some pg)
    (hab : antiBotCheck pg = some .blockedOrChallenge) :
    ∃ li, opPrologue cfg env = .ok (.blocked li pg) := by
  unfold probePage at hprobe
  unfold opPrologue
  cases hen : ensureLoggedIn cfg env.ensure env.ensureLogin with
  | error e => rw [hen] at hprobe; simp at hprobe
  | ok li =>
    rw [hen] at hprobe
    dsimp only at hprobe
    cases hn : env.nav1 with
    | none => rw [hn] at hprobe; simp at hprobe
    | some pg1 =>
      rw [hn] at hprobe
      dsimp only at hprobe ⊢
      by_cases hrc : retryCond cfg pg1 = true
      · rw [if_pos hrc] at hprobe ⊢
        cases hlf : doLoginFlow cfg env.retryLogin with
        | error e => rw [hlf] at hprobe; simp at hprobe
        | ok r =>
          rw [hlf] at hprobe
          dsimp only at hprobe ⊢
          rw [hprobe]
          dsimp only
          rw [hab]
          exact ⟨LoginInfo.retried li r, rfl⟩
      · rw [if_neg hrc] at hprobe ⊢
        simp only [Option.some.injEq] at hprobe
        subst hprobe
        rw [hab]
        exact ⟨li, rfl⟩

/-- C2: when the anti-automation probe runs on a page whose body holds
the phrase Verify you are a human (or whose lowered title holds access
denied), every public operation returns a structured result whose
error is the blocked-or-challenge code with no partial data fields
populated. -/
theorem c2_blocked_results (cfg : Config) (env : OpEnv) (pg : PageData)
    (hprobe : probePage cfg env = some pg)
    (hphrase : containsSub (strL (r"Verify you are a human")) pg.body = true ∨
               containsSub (strL (r"access denied")) (lowerStr pg.title) = true) :
    antiBotCheck pg = some .blockedOrChallenge ∧
    ((fetchLastSoldOnce cfg env).map (fun r => (r.error, r.mostRecentSale)) =
      .ok (some .blockedOrChallenge, none)) ∧
    ((fetchSalesSnapshot cfg env).map (fun r => (r.error, r.tables, r.stats, r.text)) =
      .ok (some .blockedOrChallenge, [], [], none)) ∧
    ((fetchPagesInProduct cfg env).map (fun r => (r.error, r.totalPages)) =
      .ok (some .blockedOrChallenge, none)) ∧
    (∀ t : Int, 1 ≤ t →
      ((fetchActiveListingsInPage cfg env t).1.map (fun r => (r.error, r.listings)) =
        .ok (some .blockedOrChallenge, []))) ∧
    ((fetchActiveListings cfg env).map (fun r => (r.error, r.listings)) =
      .ok (some .blockedOrChallenge, [])) := by
  obtain ⟨li, hP⟩ := opPrologue_blocked cfg env pg hprobe (antiBot_of_phrase pg hphrase)
  refine ⟨antiBot_of_phrase pg hphrase, ?_, ?_, ?_, ?_, ?_⟩
  · simp [fetchLastSoldOnce, hP, Except.map]
  · simp [fetchSalesSnapshot, hP, Except.map]
  · simp [fetchPagesInProduct, hP, Except.map]
  · intro t ht
    have ht2 : ¬ t < 1 := by omega
    simp [fetchActiveListingsInPage, ht2, hP, Except.map]
  · simp [fetchActiveListings, hP, Except.map]

/-- C2 witness: the theorem applied to a concrete environment landing
on a page whose body holds the anti-automation phrase. -/
theorem c2_blocked_results_witness :
    ((fetchLastSoldOnce cfg0 envBlocked).map (fun r => (r.error, r.mostRecentSale)) =
      .ok (some .blockedOrChallenge, none)) ∧
    ((fetchActiveListingsInPage cfg0 envBlocked 1).1.map (fun r => (r.error, r.listings)) =
      .ok (some .blockedOrChallenge, [])) := by
  have h := c2_blocked_results cfg0 envBlocked pgBlocked rfl (Or.inl (by decide))
  exact ⟨h.2.1, h.2.2.2.2.1 1 (by decide)⟩

/-- C10: a requested page number below one is rejected immediately
with the invalid-page error and an empty listing list, before the
browser context is created, any login is attempted, or any navigation
is performed. -/
theorem c10_invalid_page_guard (cfg : Config) (env : OpEnv) (t : Int) (h : t < 1) :
    fetchActiveListingsInPage cfg env t =
      (.ok ⟨t, none, none, [], 0, none, some .invalidPageNumber⟩, []) := by
  unfold fetchActiveListingsInPage
  rw [if_pos h]

/-- C10 witness: the guard applied to page zero. -/
theorem c10_invalid_page_guard_witness :
    fetchActiveListingsInPage cfg0 envNavFail 0 =
      (.ok ⟨0, none, none, [], 0, none, some .invalidPageNumber⟩, []) :=
  c10_invalid_page_guard cfg0 envNavFail 0 (by decide)

end OneShot
